import Mathlib

/-!
Verification development for the notebook-processor repository.

Shallow embedding of the components the claims concern:

* `ProcessingPipeline.run` (src/notebook_processor/pipeline.py) — modelled as a
  function over an explicit `PipelineState`, parametrised by the external
  collaborators (parser, solver, builder, executor, exporter, archiver), each
  of which may fail (`Except String`).  Disk flushes and collaborator
  invocations are recorded in an event trace.
* `DataRepairer` (src/notebook_processor/ingestion/data_repair.py) — encoding
  and line-ending repair over a byte-level file-system model.
* `InventoryScanner._extract_csv_schema` (ingestion/inventory.py) — dtype
  inference over parsed CSV rows.
* `NotebookPreprocessor._detect_markers` (ingestion/notebook_preprocess.py).
* `PackageIngestor.ingest_project` / `_archive_originals` (ingestion/ingestor.py).
* `ProjectLayout._next_run_name` (project_layout.py).
* `NotebookSolver.solve` (solver.py).
-/

set_option maxHeartbeats 1000000

namespace NotebookProc

/-- `PipelineState` from models.py: tracks pipeline progress for resume
capability. -/
structure PipelineState where
  input_path : String
  output_path : String
  done_path : Option String
  current_step : String
  completed_steps : List String
  errors : List String
  deriving DecidableEq, Repr

/-- Trace events of a pipeline run: `save s` records a `_save_state` flush of
state `s` to `state.json`; the `*Call` events record invocations of the
external collaborators (the parser, the pluggable solver, builder, executor,
exporter, archiver). -/
inductive Ev where
  | save (s : PipelineState)
  | parseCall
  | solveCall
  | buildCall
  | executeCall
  | exportCall
  | archiveCall
  deriving DecidableEq, Repr

/-- `true` exactly for the collaborator-invocation events (a step doing its
work), `false` for disk flushes. -/
def Ev.isCall : Ev → Bool
  | .save _ => false
  | _ => true

/-- The external collaborators used by `ProcessingPipeline.run`, each of which
may raise (modelled as `Except String`).  `α` is the type of the parsed
in-memory notebook content. -/
structure Effects (α : Type) where
  parse : Except String α
  solve : α → Except String α
  build : α → Except String Unit
  execute : Except String Unit
  export_html : Except String Unit
  archive : Except String Unit

/-- A failure inside the `try` block of `run`: the state at raise time, the
events emitted so far, and the exception message. -/
abbrev RunFail := PipelineState × List Ev × String

/-- The parse/solve section of `ProcessingPipeline.run` (pipeline.py lines
56–87), translated branch by branch.  On success returns the state, the parsed
(and possibly solved) content and the emitted events; on failure the state at
raise time and the events so far. -/
def runParseSolve (eff : Effects α) (st : PipelineState) :
    Except RunFail (PipelineState × α × List Ev) :=
  if "parse" ∈ st.completed_steps then
    -- else-branch of the Python `if`: re-parse without checkpointing
    match eff.parse with
    | .error e => .error (st, [.parseCall], e)
    | .ok content =>
      if "solve" ∈ st.completed_steps then
        .ok (st, content, [.parseCall])
      else
        let st1 := { st with current_step := "solve" }
        match eff.solve content with
        | .error e => .error (st1, [.parseCall, .solveCall], e)
        | .ok c2 =>
          let st2 := { st1 with
            completed_steps := st1.completed_steps ++ ["solve"] }
          .ok (st2, c2, [.parseCall, .solveCall, .save st2])
  else
    let st1 := { st with current_step := "parse" }
    match eff.parse with
    | .error e => .error (st1, [.parseCall], e)
    | .ok content =>
      -- Python: `self._save_state(state, output_path)` right after parsing,
      -- before "parse" has been appended to completed_steps
      if "solve" ∈ st1.completed_steps then
        .ok (st1, content, [.parseCall, .save st1])
      else
        let st2 := { st1 with current_step := "solve" }
        match eff.solve content with
        | .error e => .error (st2, [.parseCall, .save st1, .solveCall], e)
        | .ok c2 =>
          let st3 := { st2 with
            completed_steps := st2.completed_steps ++ ["parse", "solve"] }
          .ok (st3, c2, [.parseCall, .save st1, .solveCall, .save st3])

/-- One of the four uniformly-structured later steps of `run` (build, execute,
export, archive): skip if already in `completed_steps`, otherwise set
`current_step`, do the work, append the name and flush. -/
def runSimpleStep (name : String) (cEv : Ev) (act : Except String Unit)
    (st : PipelineState) : Except RunFail (PipelineState × List Ev) :=
  if name ∈ st.completed_steps then
    .ok (st, [])
  else
    let st1 := { st with current_step := name }
    match act with
    | .error e => .error (st1, [cEv], e)
    | .ok _ =>
      let st2 := { st1 with completed_steps := st1.completed_steps ++ [name] }
      .ok (st2, [cEv, .save st2])

/-- The build → execute → export → archive tail of `run` (pipeline.py lines
92–143), chaining the four uniformly-structured steps. -/
def runSteps (eff : Effects α) (content : α) (st1 : PipelineState) :
    Except RunFail (PipelineState × List Ev) :=
  match runSimpleStep "build" .buildCall (eff.build content) st1 with
  | .error f => .error f
  | .ok (st2, evs2) =>
    match runSimpleStep "execute" .executeCall eff.execute st2 with
    | .error (st, evs, e) => .error (st, evs2 ++ evs, e)
    | .ok (st3, evs3) =>
      match runSimpleStep "export" .exportCall eff.export_html st3 with
      | .error (st, evs, e) => .error (st, evs2 ++ evs3 ++ evs, e)
      | .ok (st4, evs4) =>
        match runSimpleStep "archive" .archiveCall eff.archive st4 with
        | .error (st, evs, e) => .error (st, evs2 ++ evs3 ++ evs4 ++ evs, e)
        | .ok (st5, evs5) => .ok (st5, evs2 ++ evs3 ++ evs4 ++ evs5)

/-- `ProcessingPipeline.run` (pipeline.py lines 30–153): the whole `try` block
followed by the `except` handler (append the message to `errors`, flush,
re-raise) and, on success, the final flush.  Returns the result
(`.ok finalState` or `.error message`) together with the full event trace. -/
def run (eff : Effects α) (st0 : PipelineState) :
    Except String PipelineState × List Ev :=
  match runParseSolve eff st0 with
  | .error (st, evs, e) =>
    let stE := { st with errors := st.errors ++ [e] }
    (.error e, evs ++ [.save stE])
  | .ok (st1, content, evs1) =>
    match runSteps eff content st1 with
    | .error (st, evs, e) =>
      let stE := { st with errors := st.errors ++ [e] }
      (.error e, evs1 ++ evs ++ [.save stE])
    | .ok (st, evs) => (.ok st, evs1 ++ evs ++ [.save st])

/-- `_load_or_create_state` when no `state.json` exists yet (pipeline.py lines
166–171): a fresh state with `current_step = "parse"` and empty lists. -/
def freshState (ip op dp : String) : PipelineState :=
  { input_path := ip
    output_path := op
    done_path := some dp
    current_step := "parse"
    completed_steps := []
    errors := [] }

/-- Collaborators that all succeed, for concrete runs of the pipeline. -/
def effAllOk : Effects Unit :=
  { parse := .ok ()
    solve := fun _ => .ok ()
    build := fun _ => .ok ()
    execute := .ok ()
    export_html := .ok ()
    archive := .ok () }

/-- The state flushed right after the parse work succeeds on a fresh run of
`run effAllOk (freshState "in" "out" "done")`: `current_step` is `"parse"` but
`completed_steps` is still empty. -/
def saveAfterParse : PipelineState :=
  ⟨"in", "out", some "done", "parse", [], []⟩

/-- Events component of a `runSteps` outcome. -/
def evsOfSteps : Except RunFail (PipelineState × List Ev) → List Ev
  | .error (_, evs, _) => evs
  | .ok (_, evs) => evs

/-- Collaborators in which the build step fails. -/
def effFailBuild : Effects Unit :=
  { parse := .ok ()
    solve := fun _ => .ok ()
    build := fun _ => .error "boom"
    execute := .ok ()
    export_html := .ok ()
    archive := .ok () }

/-- `DataQualityIssue` from models.py. -/
inductive DataQualityIssue where
  | encoding
  | line_endings
  | missing_values
  | inconsistent_types
  deriving DecidableEq, Repr

/-- `DataTransformation` from models.py (`confidence`, a float defaulting to
1.0, is modelled as a rational). -/
structure DataTransformation where
  original_path : String
  issue : DataQualityIssue
  action : String
  details : String
  records_affected : Nat
  confidence : Rat
  backup_path : Option String
  deriving DecidableEq, Repr

/-- A tiny file-system model for the repairer: an association list from
(package-relative) path to file bytes; the most recent write for a path
shadows older ones. -/
abbrev FS := List (String × List Nat)

/-- Look a path up in the file-system model. -/
def FS.read : FS → String → Option (List Nat)
  | [], _ => none
  | (q, bs) :: rest, p => if q = p then some bs else FS.read rest p

/-- Write (create or overwrite) a file in the file-system model. -/
def FS.write (fs : FS) (p : String) (bs : List Nat) : FS := (p, bs) :: fs

/-- Python `raw.count(b"\x5cr\x5cn")`: the number of (necessarily disjoint)
CRLF occurrences in the bytes, scanned left to right. -/
def countCRLF : List Nat → Nat
  | [] => 0
  | [_] => 0
  | a :: b :: rest =>
    if a = 13 ∧ b = 10 then countCRLF rest + 1 else countCRLF (b :: rest)

/-- Python `raw.replace(b"\x5cr\x5cn", b"\x5cn")`: replace every CRLF
occurrence by LF, scanning left to right. -/
def replaceCRLF : List Nat → List Nat
  | [] => []
  | [a] => [a]
  | a :: b :: rest =>
    if a = 13 ∧ b = 10 then 10 :: replaceCRLF rest
    else a :: replaceCRLF (b :: rest)

/-- `true` when the bytes contain no `CR CR LF` run — the pattern on which the
left-to-right CRLF replacement leaves a fresh CRLF behind. -/
def noCRCRLF : List Nat → Bool
  | a :: b :: c :: rest =>
    !(a = 13 && b = 13 && c = 10) && noCRCRLF (b :: c :: rest)
  | _ => true

/-- External collaborators of the Data Repairer: `charset_normalizer`
best-guess detection (returning the encoding name, or `none` when there is no
guess), Python `bytes.decode(enc, errors="replace")`, UTF-8 encoding of a
string, and the human-readable details text of an encoding record (which
depends on external codec tables, see `_count_substitutions`). -/
structure RepairEnv where
  detect : List Nat → Option String
  decode : String → List Nat → String
  utf8 : String → List Nat
  encDetails : String → List Nat → String

/-- The audit record emitted by `_fix_encoding` (data_repair.py lines
93–100). -/
def encodingRecord (env : RepairEnv) (rel : String) (raw : List Nat)
    (detected : String) : DataTransformation :=
  { original_path := rel
    issue := .encoding
    action := "Converted from " ++ detected ++ " to UTF-8"
    details := env.encDetails detected raw
    records_affected := (env.decode detected raw).toList.count (Char.ofNat 10)
    confidence := 1
    backup_path := some (rel ++ ".orig") }

/-- `DataRepairer._fix_encoding` (data_repair.py lines 54–100) over the
file-system model; `rel`, the package-relative path, is the key under which
the file is stored (`file_path.with_suffix(suffix + ".orig")` always appends
`".orig"` to the file name).  Returns the updated file system and the audit
record, if any. -/
def fix_encoding (env : RepairEnv) (fs : FS) (rel : String) :
    FS × Option DataTransformation :=
  let raw := (FS.read fs rel).getD []
  match env.detect raw with
  | none => (fs, none)
  | some encName =>
    let detected := encName.toLower
    if detected = "utf-8" ∨ detected = "ascii" then
      (fs, none)
    else
      let fs1 := fs.write (rel ++ ".orig") raw
      let text := env.decode detected raw
      let fs2 := fs1.write rel (env.utf8 text)
      (fs2, some (encodingRecord env rel raw detected))

/-- The audit record emitted by `_fix_line_endings` (data_repair.py lines
131–137). -/
def lineEndingsRecord (rel : String) (crlf_count : Nat) : DataTransformation :=
  { original_path := rel
    issue := .line_endings
    action := "Normalized CRLF to LF"
    details := "Replaced " ++ toString crlf_count ++ " CRLF line endings with LF"
    records_affected := crlf_count
    confidence := 1
    backup_path := none }

/-- `DataRepairer._fix_line_endings` (data_repair.py lines 115–137). -/
def fix_line_endings (fs : FS) (rel : String) :
    FS × Option DataTransformation :=
  let raw := (FS.read fs rel).getD []
  let crlf_count := countCRLF raw
  if crlf_count = 0 then
    (fs, none)
  else
    (fs.write rel (replaceCRLF raw),
      some (lineEndingsRecord rel crlf_count))

/-- `DataRepairer.repair` (data_repair.py lines 20–48): a no-op when the file
does not exist; otherwise the encoding fix followed by the line-ending fix,
each appending its audit record to the asset's transformation list (the
shared transformation logger receives the same records in the same order). -/
def repair (env : RepairEnv) (fs : FS) (rel : String)
    (transformations : List DataTransformation) :
    FS × List DataTransformation :=
  match FS.read fs rel with
  | none => (fs, transformations)
  | some _ =>
    let r1 := fix_encoding env fs rel
    let ts1 := transformations ++ r1.2.toList
    let r2 := fix_line_endings r1.1 rel
    (r2.1, ts1 ++ r2.2.toList)

/-- A detector environment whose statistical analysis yields no best guess
(`result.best()` is `None`), so no encoding issue exists. -/
def envDetectNone : RepairEnv :=
  { detect := fun _ => none
    decode := fun _ _ => ""
    utf8 := fun _ => []
    encDetails := fun _ _ => "" }

/-- A detector environment that always guesses the legacy Windows codepage
`CP1252`. -/
def envCp1252 : RepairEnv :=
  { detect := fun _ => some "CP1252"
    decode := fun _ _ => "ab"
    utf8 := fun s => s.toList.map Char.toNat
    encDetails := fun _ _ => "details" }

/-- `DataSchema` from models.py restricted to the fields the claims concern.
The Python dicts `dtypes` and `null_counts` are built one entry per column in
column order; they are modelled as association lists in that insertion order.
The `sample_head`/`sample_tail` previews are outside the claims and are not
modelled. -/
structure DataSchema where
  columns : List String
  dtypes : List (String × String)
  row_count : Nat
  null_counts : List (String × Nat)
  deriving DecidableEq, Repr

/-- `true` for the characters Python `str.strip()` removes (space, tab,
newline, carriage return, vertical tab, form feed). -/
def isPySpace (c : Char) : Bool :=
  c.toNat = 32 || c.toNat = 9 || c.toNat = 10 || c.toNat = 13 ||
    c.toNat = 11 || c.toNat = 12

/-- Python `str.strip()`: drop leading and trailing whitespace (modelled
structurally over the character list so that it evaluates by reduction). -/
def pyStrip (s : String) : String :=
  ⟨((s.data.dropWhile isPySpace).reverse.dropWhile isPySpace).reverse⟩

/-- The per-column voting loop of `_extract_csv_schema` (inventory.py lines
100–117), parametrised by the Python `int()` / `float()` parse predicates:
thread `(nulls, is_int, is_float)` through the cells; a whitespace-only cell
(`val.strip() == ""`) counts as null and is skipped; otherwise `is_int`
survives only if the cell parses as an integer, and `is_float` is
(re-)checked only once `is_int` has fallen. -/
def voteLoop (isIntStr isFloatStr : String → Bool) :
    List String → Nat → Bool → Bool → Nat × Bool × Bool
  | [], nulls, is_int, is_float => (nulls, is_int, is_float)
  | v :: rest, nulls, is_int, is_float =>
    if pyStrip v = "" then
      voteLoop isIntStr isFloatStr rest (nulls + 1) is_int is_float
    else
      voteLoop isIntStr isFloatStr rest nulls (is_int && isIntStr v)
        (if is_float && !(is_int && isIntStr v) then isFloatStr v
         else is_float)

/-- The `i`-th column of the data rows, padding short rows with `""`
(`row[i] if i < len(row) else ""`, inventory.py line 104). -/
def cellsOfColumn (data_rows : List (List String)) (i : Nat) : List String :=
  data_rows.map (fun r => r.getD i "")

/-- Number of null (empty or whitespace-only) cells. -/
def countNulls (cells : List String) : Nat :=
  (cells.filter (fun v => decide (pyStrip v = ""))).length

/-- The non-null cells, in order. -/
def nonNullCells (cells : List String) : List String :=
  cells.filter (fun v => decide (¬ pyStrip v = ""))

/-- The dtype policy as the spec words it: int64 if every non-empty cell
parses as an integer, else float64 if every non-empty cell parses as a float,
else text (`"object"`); amended with the all-null case, which the code types
as `"object"`. -/
def specDtype (isIntStr isFloatStr : String → Bool)
    (cells : List String) : String :=
  let nn := nonNullCells cells
  if nn = [] then "object"
  else if nn.all isIntStr then "int64"
  else if nn.all isFloatStr then "float64"
  else "object"

/-- The per-column body of `_extract_csv_schema` (inventory.py lines
99–125): produces the `(column, dtype)` entry and, when the column has nulls,
the `(column, null-count)` entry. -/
def inferColumn (isIntStr isFloatStr : String → Bool)
    (data_rows : List (List String)) (row_count : Nat)
    (i : Nat) (col : String) :
    (String × String) × Option (String × Nat) :=
  let cells := data_rows.map (fun r => r.getD i "")
  let v := voteLoop isIntStr isFloatStr cells 0 true true
  let nulls := v.1
  let is_int := v.2.1
  let is_float := v.2.2
  let dtype :=
    if is_int = true ∧ nulls < row_count then "int64"
    else if is_float = true ∧ nulls < row_count then "float64"
    else "object"
  ((col, dtype), if 0 < nulls then some (col, nulls) else none)

/-- `InventoryScanner._extract_csv_schema` (inventory.py lines 80–152) on
already-parsed CSV rows (the csv reader is stdlib), parametrised by the
`int()` / `float()` parse predicates.  Returns `none` for an empty row list
(`len(rows) < 1`). -/
def extract_csv_schema (isIntStr isFloatStr : String → Bool)
    (rows : List (List String)) : Option DataSchema :=
  match rows with
  | [] => none
  | columns :: data_rows =>
    let row_count := data_rows.length
    let results := columns.enum.map (fun ic =>
      inferColumn isIntStr isFloatStr data_rows row_count ic.1 ic.2)
    some { columns := columns
           dtypes := results.map (fun r => r.1)
           row_count := row_count
           null_counts := results.filterMap (fun r => r.2) }

/-- Simplified lexical model of Python `int()` over strings (optional sign,
decimal digits, surrounding whitespace), used only as a concrete instance of
the parse predicates for witnesses: the schema theorems are parametric in the
predicates. -/
def pyIntStr (s : String) : Bool :=
  let t := (pyStrip s).data
  let t2 := match t with
    | c :: rest => if c = '+' || c = '-' then rest else t
    | [] => t
  !t2.isEmpty && t2.all Char.isDigit

/-- Simplified lexical model of Python `float()` over strings: everything
`int()` accepts, plus a decimal-point form.  Used only as a concrete instance
for witnesses. -/
def pyFloatStr (s : String) : Bool :=
  pyIntStr s ||
    (let t := (pyStrip s).data
     let t2 := match t with
       | c :: rest => if c = '+' || c = '-' then rest else t
       | [] => t
     let a := t2.takeWhile Char.isDigit
     match t2.dropWhile Char.isDigit with
     | '.' :: b => (!a.isEmpty || !b.isEmpty) && b.all Char.isDigit
     | _ => false)

/-- `CellType` from models.py. -/
inductive CellType where
  | code
  | markdown
  | raw
  deriving DecidableEq, Repr

/-- `CellStatus` from models.py. -/
inductive CellStatus where
  | original
  | todo_code
  | todo_markdown
  | completed
  | added
  deriving DecidableEq, Repr

/-- `NotebookCell` from models.py.  The `outputs` payload (a list of JSON-ish
dictionaries, or `None`) is opaque to the solver and modelled as an opaque
list of strings. -/
structure NotebookCell where
  index : Nat
  cell_type : CellType
  source : String
  status : CellStatus
  original_source : Option String
  outputs : Option (List String)
  deriving DecidableEq, Repr

/-- `InstructionFile` from models.py. -/
structure InstructionFile where
  path : String
  content : String
  images : List String
  deriving DecidableEq, Repr

/-- `NotebookContent` from models.py.  The notebook-level `metadata`
dictionary is opaque to the solver and modelled as an association list of
opaque strings. -/
structure NotebookContent where
  path : String
  cells : List NotebookCell
  metadata : List (String × String)
  instructions : Option InstructionFile
  kernel_spec : Option String
  deriving DecidableEq, Repr

/-- The per-cell body of `NotebookSolver.solve` (solver.py lines 33–57),
parametrised by the abstract `solve_code_cell` / `solve_markdown_cell`
strategy methods. -/
def solveCell (sc sm : NotebookCell → NotebookContent → String)
    (content : NotebookContent) (cell : NotebookCell) : NotebookCell :=
  match cell.status with
  | .todo_code =>
    { cell with
      source := sc cell content
      status := .completed
      original_source := some cell.source }
  | .todo_markdown =>
    { cell with
      source := sm cell content
      status := .completed
      original_source := some cell.source }
  | _ => cell

/-- `NotebookSolver.solve` (solver.py lines 23–59): map the per-cell body
over the cells, keep every other field. -/
def solve (sc sm : NotebookCell → NotebookContent → String)
    (content : NotebookContent) : NotebookContent :=
  { content with cells := content.cells.map (solveCell sc sm content) }

/-- A cell as the notebook preprocessor sees it (an nbformat cell): the
nbformat `cell_type` string and the source.  The source is modelled as a
character list so that `source[:200]` evaluates by reduction. -/
structure NbCell where
  cell_type : String
  source : List Char
  deriving DecidableEq, Repr

/-- `TodoMarker` from models.py restricted to the fields the claim concerns
(`task_id` is never set by `_detect_markers`). -/
structure TodoMarker where
  cell_index : Nat
  cell_type : CellType
  marker_pattern : String
  variable_name : Option String
  context : List Char
  deriving DecidableEq, Repr

/-- `DEFAULT_TODO_PATTERNS` (notebook_preprocess.py lines 32–45): the fixed,
ordered regular-expression pattern list. -/
def DEFAULT_TODO_PATTERNS : List String :=
  [ "#\\s*TODO",
    "raise\\s+NotImplementedError",
    "#\\s*YOUR\\s+CODE\\s+HERE",
    "\\*\\*Your\\s+answer\\s+here\\*\\*",
    "\\*\\*YOUR\\s+ANSWER\\s+HERE\\*\\*",
    "<--\\s*YOUR\\s+SYSTEM\\s+PROMPT\\s+GOES\\s+HERE\\s*-->",
    "<--\\s*YOUR\\s+USER\\s+PROMPT\\s+GOES\\s+HERE\\s*-->",
    "`<Enter\\s+your\\s+.*here>`",
    "<!--\\s*YOUR\\s+ANSWER\\s+HERE\\s*-->" ]

/-- The marker built for one enumerated cell by `_detect_markers`
(notebook_preprocess.py lines 235–250): the first pattern (in list order)
that the external regex engine (`search`) matches wins; the variable-name
recovery heuristic (`_extract_variable_name`, which needs the regex match
span) is abstracted as `varName`. -/
def markerFor (search : String → List Char → Bool)
    (varName : String → List Char → Option String)
    (patterns : List String) (ic : Nat × NbCell) : Option TodoMarker :=
  match patterns.find? (fun p => search p ic.2.source) with
  | some p =>
    some { cell_index := ic.1
           cell_type := if ic.2.cell_type = "code" then .code else .markdown
           marker_pattern := p
           variable_name := varName p ic.2.source
           context := ic.2.source.take 200 }
  | none => none

/-- `NotebookPreprocessor._detect_markers` (notebook_preprocess.py lines
232–251): scan each enumerated cell; record at most one marker per cell
(inner loop breaks after the first matching pattern). -/
def detect_markers (search : String → List Char → Bool)
    (varName : String → List Char → Option String)
    (patterns : List String) (cells : List NbCell) : List TodoMarker :=
  cells.enum.filterMap (markerFor search varName patterns)

/-- Parse `^run-(\d\x7b3\x7d)$` (project_layout.py line 26): `some n` exactly
when the name is `run-` followed by exactly three decimal digits. -/
def parseRunName (name : String) : Option Nat :=
  match name.data with
  | 'r' :: 'u' :: 'n' :: '-' :: [a, b, c] =>
    if a.isDigit && b.isDigit && c.isDigit then
      some ((a.toNat - 48) * 100 + (b.toNat - 48) * 10 + (c.toNat - 48))
    else none
  | _ => none

/-- Python `"{:03d}".format n`: decimal digits zero-padded to width at least
three. -/
def pad3 (n : Nat) : String :=
  if n < 10 then "00" ++ toString n
  else if n < 100 then "0" ++ toString n
  else toString n

/-- `ProjectLayout._next_run_name` (project_layout.py lines 65–74) over the
names of the existing subdirectories of `output/`. -/
def next_run_name (dirs : List String) : String :=
  "run-" ++ pad3 ((dirs.foldl (fun acc d =>
    match parseRunName d with
    | some v => max acc v
    | none => acc) 0) + 1)

/-- The state of one project layout for `ingest_project`: the names of the
loose entries in the project root (outside `input/`, `ingested/`, `output/`),
the entries of `input/`, the `ingested/manifest.json` content when that file
exists, and the other entries of `ingested/`.  `M` is the (opaque) manifest
type. -/
structure ProjFS (M : Type) where
  loose : List String
  input : List String
  ingestedManifest : Option M
  ingestedOther : List String
  deriving DecidableEq, Repr

/-- The conflict error of `_archive_originals` (`FileExistsError`). -/
inductive IngestErr where
  | fileExists
  deriving DecidableEq, Repr

/-- `PackageIngestor._archive_originals` (ingestor.py lines 150–181): nothing
to do without loose files; refuse (unless forced) when `input/` is already
populated; otherwise move every loose root entry into `input/`. -/
def archive_originals {M : Type} (force : Bool) (fs : ProjFS M) :
    Except IngestErr (ProjFS M) :=
  if fs.loose = [] then .ok fs
  else if fs.input ≠ [] ∧ force = false then .error .fileExists
  else .ok { fs with input := fs.input ++ fs.loose, loose := [] }

/-- `PackageIngestor.ingest_project` (ingestor.py lines 109–148) over the
layout model.  `ingestFn` abstracts the five-phase `ingest(input_dir,
ingested_dir)` pipeline: from the `input/` entries it produces the new
manifest and the other files written into `ingested/`.  The Boolean in the
result records whether ingestion ran (`false` means the manifest was loaded
from the existing file and no ingestion phase re-ran). -/
def ingest_project {M : Type} (ingestFn : List String → M × List String)
    (force : Bool) (fs : ProjFS M) :
    Except IngestErr (M × ProjFS M × Bool) :=
  match archive_originals force fs with
  | .error e => .error e
  | .ok fs1 =>
    match fs1.ingestedManifest, force with
    | some m, false => .ok (m, fs1, false)
    | _, f =>
      let fs2 := if f then
          { fs1 with ingestedManifest := none, ingestedOther := [] }
        else fs1
      let r := ingestFn fs2.input
      .ok (r.1,
        { fs2 with
          ingestedManifest := some r.1
          ingestedOther := fs2.ingestedOther ++ r.2 }, true)

/-- The project state after a successful `_archive_originals`: loose root
entries, if any, moved into `input/`. -/
def archivedFS {M : Type} (fs : ProjFS M) : ProjFS M :=
  if fs.loose = [] then fs
  else { fs with input := fs.input ++ fs.loose, loose := [] }

/-- A concrete code-cell solver strategy for witnesses. -/
def scW : NotebookCell → NotebookContent → String := fun _ _ => "pass"

/-- A concrete markdown-cell solver strategy for witnesses. -/
def smW : NotebookCell → NotebookContent → String := fun _ _ => "answer"

/-- A completed-looking original cell for witnesses. -/
def cellO : NotebookCell := ⟨0, .code, "x = 1", .original, none, none⟩

/-- A todo code cell for witnesses. -/
def cellT : NotebookCell := ⟨1, .code, "# TODO", .todo_code, none, some []⟩

/-- A two-cell notebook content for witnesses. -/
def contentW : NotebookContent :=
  ⟨"nb.ipynb", [cellO, cellT], [("k", "v")], none, some "python3"⟩

/-- A concrete regex-engine stand-in for witnesses: matches exactly the
raise-NotImplementedError pattern. -/
def searchW : String → List Char → Bool :=
  fun p _ => p = "raise\\s+NotImplementedError"

/-- A concrete variable-name extractor stand-in for witnesses. -/
def varNameW : String → List Char → Option String := fun _ _ => none

/-- Two nbformat-style cells for witnesses. -/
def nbCellsW : List NbCell :=
  [⟨"code", "# setup".data⟩, ⟨"code", "raise NotImplementedError".data⟩]

/-- C1 counterexample: on a fresh run in which every step succeeds, the only
flush between the parse work and the solve work persists a state whose
`completed_steps` does not contain `"parse"` — the claim that the disk state
already lists parse before solve runs is false. -/
theorem pipeline_parse_not_on_disk_before_solve :
    (run effAllOk (freshState "in" "out" "done")).2.take 3 =
      [Ev.parseCall, Ev.save saveAfterParse, Ev.solveCall] ∧
    "parse" ∉ saveAfterParse.completed_steps := by
  decide

/-- C1 (amended): on a fresh run whose six steps all succeed, the event trace
shows that build, execute, export and archive are each checkpointed (name
appended to `completed_steps` and state flushed) immediately after their work
and before the next step's work, while parse and solve are checkpointed
jointly: the flush between parse and solve carries `current_step = "parse"`
but does not yet list `"parse"` in `completed_steps`; `"parse"` and `"solve"`
are appended together after the solve work succeeds. -/
theorem run_checkpoints_after_each_step {α : Type} (eff : Effects α)
    (ip op dp : String) (c0 c1 : α)
    (hp : eff.parse = .ok c0) (hs : eff.solve c0 = .ok c1)
    (hb : eff.build c1 = .ok ()) (he : eff.execute = .ok ())
    (hx : eff.export_html = .ok ()) (ha : eff.archive = .ok ()) :
    run eff (freshState ip op dp) =
      (.ok ⟨ip, op, some dp, "archive",
          ["parse", "solve", "build", "execute", "export", "archive"], []⟩,
       [.parseCall,
        .save ⟨ip, op, some dp, "parse", [], []⟩,
        .solveCall,
        .save ⟨ip, op, some dp, "solve", ["parse", "solve"], []⟩,
        .buildCall,
        .save ⟨ip, op, some dp, "build", ["parse", "solve", "build"], []⟩,
        .executeCall,
        .save ⟨ip, op, some dp, "execute",
          ["parse", "solve", "build", "execute"], []⟩,
        .exportCall,
        .save ⟨ip, op, some dp, "export",
          ["parse", "solve", "build", "execute", "export"], []⟩,
        .archiveCall,
        .save ⟨ip, op, some dp, "archive",
          ["parse", "solve", "build", "execute", "export", "archive"], []⟩,
        .save ⟨ip, op, some dp, "archive",
          ["parse", "solve", "build", "execute", "export", "archive"], []⟩]) := by
  simp [run, runParseSolve, runSteps, runSimpleStep, freshState,
    hp, hs, hb, he, hx, ha]

/-- Witness for `run_checkpoints_after_each_step` at concrete collaborators
that all succeed. -/
theorem run_checkpoints_after_each_step_witness :
    run effAllOk (freshState "i" "o" "d") =
      (.ok ⟨"i", "o", some "d", "archive",
          ["parse", "solve", "build", "execute", "export", "archive"], []⟩,
       [.parseCall,
        .save ⟨"i", "o", some "d", "parse", [], []⟩,
        .solveCall,
        .save ⟨"i", "o", some "d", "solve", ["parse", "solve"], []⟩,
        .buildCall,
        .save ⟨"i", "o", some "d", "build", ["parse", "solve", "build"], []⟩,
        .executeCall,
        .save ⟨"i", "o", some "d", "execute",
          ["parse", "solve", "build", "execute"], []⟩,
        .exportCall,
        .save ⟨"i", "o", some "d", "export",
          ["parse", "solve", "build", "execute", "export"], []⟩,
        .archiveCall,
        .save ⟨"i", "o", some "d", "archive",
          ["parse", "solve", "build", "execute", "export", "archive"], []⟩,
        .save ⟨"i", "o", some "d", "archive",
          ["parse", "solve", "build", "execute", "export", "archive"], []⟩]) :=
  run_checkpoints_after_each_step effAllOk "i" "o" "d" () ()
    rfl rfl rfl rfl rfl rfl

theorem runSimpleStep_error {name : String} {cEv : Ev} {act : Except String Unit}
    {st st' : PipelineState} {evs : List Ev} {e : String}
    (h : runSimpleStep name cEv act st = .error (st', evs, e)) :
    evs = [cEv] ∧ st'.errors = st.errors ∧
      st'.completed_steps = st.completed_steps := by
  unfold runSimpleStep at h
  split at h
  · exact absurd h (by simp)
  · rcases act with e' | u
    · simp only [Except.error.injEq, Prod.mk.injEq] at h
      obtain ⟨h1, h2, h3⟩ := h
      subst h1
      exact ⟨h2.symm, rfl, rfl⟩
    · exact absurd h (by simp)

theorem runSimpleStep_ok {name : String} {cEv : Ev} {act : Except String Unit}
    {st st' : PipelineState} {evs : List Ev}
    (h : runSimpleStep name cEv act st = .ok (st', evs)) :
    (evs = [] ∧ st' = st) ∨
    (evs = [cEv, .save st'] ∧
      st'.completed_steps = st.completed_steps ++ [name] ∧
      st'.errors = st.errors) := by
  unfold runSimpleStep at h
  split at h
  · left
    simp only [Except.ok.injEq, Prod.mk.injEq] at h
    exact ⟨h.2.symm, h.1.symm⟩
  · rcases act with e' | u
    · exact absurd h (by simp)
    · right
      simp only [Except.ok.injEq, Prod.mk.injEq] at h
      obtain ⟨h1, h2⟩ := h
      subst h1
      exact ⟨h2.symm, rfl, rfl⟩

theorem runParseSolve_error {α : Type} {eff : Effects α}
    {st st' : PipelineState} {evs : List Ev} {e : String}
    (h : runParseSolve eff st = .error (st', evs, e)) :
    (∃ evs₀ cEv, evs = evs₀ ++ [cEv] ∧ cEv.isCall = true) ∧
      st'.errors = st.errors ∧
      st'.completed_steps = st.completed_steps := by
  unfold runParseSolve at h
  repeat' (first | (split at h) | (dsimp only at h))
  all_goals try exact Except.noConfusion h
  all_goals injection h with h'
  all_goals injection h' with ha hb
  all_goals injection hb with hb1 hb2
  all_goals subst ha hb1 hb2
  all_goals first
    | exact ⟨⟨[], .parseCall, rfl, rfl⟩, rfl, rfl⟩
    | exact ⟨⟨[.parseCall], .solveCall, rfl, rfl⟩, rfl, rfl⟩
    | exact ⟨⟨[.parseCall, .save _], .solveCall, rfl, rfl⟩, rfl, rfl⟩

theorem runParseSolve_ok {α : Type} {eff : Effects α}
    {st st' : PipelineState} {c' : α} {evs : List Ev}
    (h : runParseSolve eff st = .ok (st', c', evs)) :
    st'.errors = st.errors ∧
      ∃ t, st'.completed_steps = st.completed_steps ++ t := by
  unfold runParseSolve at h
  repeat' (first | (split at h) | (dsimp only at h))
  all_goals try exact Except.noConfusion h
  all_goals injection h with h'
  all_goals injection h' with ha hb
  all_goals injection hb with hb1 hb2
  all_goals subst ha hb1 hb2
  all_goals first
    | exact ⟨rfl, [], (List.append_nil _).symm⟩
    | exact ⟨rfl, ["solve"], rfl⟩
    | exact ⟨rfl, ["parse", "solve"], rfl⟩

theorem stepChain {name : String} {cEv : Ev} {act : Except String Unit}
    {stA stB : PipelineState} {evsB : List Ev}
    (h : runSimpleStep name cEv act stA = .ok (stB, evsB))
    {st0 : PipelineState}
    (hA : stA.errors = st0.errors ∧
      ∃ t, stA.completed_steps = st0.completed_steps ++ t) :
    stB.errors = st0.errors ∧
      ∃ t, stB.completed_steps = st0.completed_steps ++ t := by
  obtain ⟨hAe, tA, hAc⟩ := hA
  rcases runSimpleStep_ok h with ⟨-, h2⟩ | ⟨-, h2, h3⟩
  · subst h2; exact ⟨hAe, tA, hAc⟩
  · exact ⟨by rw [h3, hAe], tA ++ [name],
      by rw [h2, hAc, List.append_assoc]⟩

theorem stepChainErr {name : String} {cEv : Ev} {act : Except String Unit}
    {stA stF : PipelineState} {evsF : List Ev} {e : String}
    (h : runSimpleStep name cEv act stA = .error (stF, evsF, e))
    {st0 : PipelineState}
    (hA : stA.errors = st0.errors ∧
      ∃ t, stA.completed_steps = st0.completed_steps ++ t) :
    evsF = [cEv] ∧ stF.errors = st0.errors ∧
      ∃ t, stF.completed_steps = st0.completed_steps ++ t := by
  obtain ⟨hAe, tA, hAc⟩ := hA
  obtain ⟨h1, h2, h3⟩ := runSimpleStep_error h
  exact ⟨h1, by rw [h2, hAe], tA, by rw [h3, hAc]⟩

theorem runSteps_error {α : Type} {eff : Effects α} {c : α}
    {st st' : PipelineState} {evs : List Ev} {e : String}
    (h : runSteps eff c st = .error (st', evs, e)) :
    (∃ evs₀ cEv, evs = evs₀ ++ [cEv] ∧ cEv.isCall = true) ∧
      st'.errors = st.errors ∧
      ∃ t, st'.completed_steps = st.completed_steps ++ t := by
  have hbase : st.errors = st.errors ∧
      ∃ t, st.completed_steps = st.completed_steps ++ t :=
    ⟨rfl, [], (List.append_nil _).symm⟩
  unfold runSteps at h
  rcases hb : runSimpleStep "build" Ev.buildCall (eff.build c) st with
    ⟨sb, eb, mb⟩ | ⟨st2, evs2⟩ <;> rw [hb] at h <;> dsimp only at h
  · injection h with h'
    injection h' with ha hrest
    injection hrest with hb1 hb2
    subst ha hb1 hb2
    obtain ⟨h1, h2, h3⟩ := stepChainErr hb hbase
    exact ⟨⟨[], .buildCall, by simp [h1], rfl⟩, h2, h3⟩
  · have h2ok := stepChain hb hbase
    rcases hx : runSimpleStep "execute" Ev.executeCall eff.execute st2 with
      ⟨sx, ex, mx⟩ | ⟨st3, evs3⟩ <;> rw [hx] at h <;> dsimp only at h
    · injection h with h'
      injection h' with ha hrest
      injection hrest with hb1 hb2
      subst ha hb1 hb2
      obtain ⟨h1, h2, h3⟩ := stepChainErr hx h2ok
      exact ⟨⟨evs2, .executeCall, by simp [h1], rfl⟩, h2, h3⟩
    · have h3ok := stepChain hx h2ok
      rcases hz : runSimpleStep "export" Ev.exportCall eff.export_html st3 with
        ⟨sz, ez, mz⟩ | ⟨st4, evs4⟩ <;> rw [hz] at h <;> dsimp only at h
      · injection h with h'
        injection h' with ha hrest
        injection hrest with hb1 hb2
        subst ha hb1 hb2
        obtain ⟨h1, h2, h3⟩ := stepChainErr hz h3ok
        exact ⟨⟨evs2 ++ evs3, .exportCall,
          by simp [h1, List.append_assoc], rfl⟩, h2, h3⟩
      · have h4ok := stepChain hz h3ok
        rcases hw : runSimpleStep "archive" Ev.archiveCall eff.archive st4 with
          ⟨sw, ew, mw⟩ | ⟨st5, evs5⟩ <;> rw [hw] at h <;> dsimp only at h
        · injection h with h'
          injection h' with ha hrest
          injection hrest with hb1 hb2
          subst ha hb1 hb2
          obtain ⟨h1, h2, h3⟩ := stepChainErr hw h4ok
          exact ⟨⟨evs2 ++ evs3 ++ evs4, .archiveCall,
            by simp [h1, List.append_assoc], rfl⟩, h2, h3⟩
        · exact Except.noConfusion h

theorem runSimpleStep_no_foreign_ev {name : String} {cEv : Ev}
    {act : Except String Unit} {st : PipelineState} {x : Ev}
    (hx1 : x ≠ cEv) (hx2 : ∀ s, x ≠ .save s) :
    (∀ {st' evs e}, runSimpleStep name cEv act st = .error (st', evs, e) →
      x ∉ evs) ∧
    (∀ {st' evs}, runSimpleStep name cEv act st = .ok (st', evs) → x ∉ evs) := by
  constructor
  · intro st' evs e h
    obtain ⟨h1, -, -⟩ := runSimpleStep_error h
    subst h1
    simp [hx1]
  · intro st' evs h
    rcases runSimpleStep_ok h with ⟨h1, -⟩ | ⟨h1, -, -⟩ <;> subst h1
    · simp
    · simp [hx1, hx2 st']

theorem solveCall_not_mem_runSteps {α : Type} (eff : Effects α) (c : α)
    (st : PipelineState) : Ev.solveCall ∉ evsOfSteps (runSteps eff c st) := by
  have hB := @runSimpleStep_no_foreign_ev "build" Ev.buildCall
    (eff.build c) st Ev.solveCall (by simp) (by simp)
  unfold runSteps
  rcases hb : runSimpleStep "build" Ev.buildCall (eff.build c) st with
    ⟨sb, eb, mb⟩ | ⟨st2, evs2⟩ <;> dsimp only [evsOfSteps]
  · exact hB.1 hb
  · have hnb := hB.2 hb
    have hX := @runSimpleStep_no_foreign_ev "execute" Ev.executeCall
      eff.execute st2 Ev.solveCall (by simp) (by simp)
    rcases hx : runSimpleStep "execute" Ev.executeCall eff.execute st2 with
      ⟨sx, ex, mx⟩ | ⟨st3, evs3⟩ <;> dsimp only [evsOfSteps]
    · simp [List.mem_append, hnb, hX.1 hx]
    · have hnx := hX.2 hx
      have hZ := @runSimpleStep_no_foreign_ev "export" Ev.exportCall
        eff.export_html st3 Ev.solveCall (by simp) (by simp)
      rcases hz : runSimpleStep "export" Ev.exportCall eff.export_html st3 with
        ⟨sz, ez, mz⟩ | ⟨st4, evs4⟩ <;> dsimp only [evsOfSteps]
      · simp [List.mem_append, hnb, hnx, hZ.1 hz]
      · have hnz := hZ.2 hz
        have hW := @runSimpleStep_no_foreign_ev "archive" Ev.archiveCall
          eff.archive st4 Ev.solveCall (by simp) (by simp)
        rcases hw : runSimpleStep "archive" Ev.archiveCall eff.archive st4 with
          ⟨sw, ew, mw⟩ | ⟨st5, evs5⟩ <;> dsimp only [evsOfSteps]
        · simp [List.mem_append, hnb, hnx, hnz, hW.1 hw]
        · simp [List.mem_append, hnb, hnx, hnz, hW.2 hw]

/-- C2: resuming a run whose persisted state already lists both `"parse"` and
`"solve"` in `completed_steps` never invokes the solver (no solve-call event
in the trace), while the notebook is still re-parsed (a parse-call event is in
the trace). -/
theorem run_resume_skips_solver {α : Type} (eff : Effects α)
    (st0 : PipelineState)
    (hp : "parse" ∈ st0.completed_steps)
    (hs : "solve" ∈ st0.completed_steps) :
    Ev.solveCall ∉ (run eff st0).2 ∧ Ev.parseCall ∈ (run eff st0).2 := by
  have hps : runParseSolve eff st0 =
      (match eff.parse with
        | .error e => .error (st0, [.parseCall], e)
        | .ok c => .ok (st0, c, [.parseCall])) := by
    unfold runParseSolve
    rw [if_pos hp]
    rcases hpe : eff.parse with e | c <;> dsimp only
    rw [if_pos hs]
  unfold run
  rw [hps]
  rcases hpe : eff.parse with e | c <;> dsimp only
  · constructor
    · simp
    · simp
  · rcases hrs : runSteps eff c st0 with ⟨sf, ef, mf⟩ | ⟨sf, ef⟩ <;>
      dsimp only
    · have hns : Ev.solveCall ∉ ef := by
        have hmem := solveCall_not_mem_runSteps eff c st0
        rw [hrs] at hmem
        exact hmem
      constructor
      · simp [List.mem_append, hns]
      · simp
    · have hns : Ev.solveCall ∉ ef := by
        have hmem := solveCall_not_mem_runSteps eff c st0
        rw [hrs] at hmem
        exact hmem
      constructor
      · simp [List.mem_append, hns]
      · simp

/-- Witness for `run_resume_skips_solver`: a state with parse and solve both
recorded complete. -/
theorem run_resume_skips_solver_witness :
    Ev.solveCall ∉
        (run effAllOk ⟨"i", "o", some "d", "solve",
          ["parse", "solve"], []⟩).2 ∧
      Ev.parseCall ∈
        (run effAllOk ⟨"i", "o", some "d", "solve",
          ["parse", "solve"], []⟩).2 :=
  run_resume_skips_solver effAllOk _ (by decide) (by decide)

/-- C3: whenever `run` propagates a failure, the event trace ends with the
failing step's collaborator call followed by one final flush of a state whose
`errors` is the initial `errors` with the failure message appended and whose
`completed_steps` extends the initial `completed_steps`; no step runs after
the failing one. -/
theorem run_failure_records_error {α : Type} (eff : Effects α)
    (st0 : PipelineState) (e : String)
    (h : (run eff st0).1 = .error e) :
    ∃ evs₀ cEv sE, (run eff st0).2 = evs₀ ++ [cEv, .save sE] ∧
      cEv.isCall = true ∧ sE.errors = st0.errors ++ [e] ∧
      ∃ t, sE.completed_steps = st0.completed_steps ++ t := by
  rcases hps : runParseSolve eff st0 with ⟨sf, ef, mf⟩ | ⟨st1, c, evs1⟩
  · have hrun : run eff st0 =
        (.error mf, ef ++ [.save { sf with errors := sf.errors ++ [mf] }]) := by
      unfold run; rw [hps]
    rw [hrun] at h ⊢
    dsimp only at h
    injection h with h1
    subst h1
    obtain ⟨⟨evs₀, cEv, hef, hcall⟩, herr, hcomp⟩ := runParseSolve_error hps
    refine ⟨evs₀, cEv, { sf with errors := sf.errors ++ [mf] }, ?_, hcall,
      ?_, ⟨[], ?_⟩⟩
    · rw [hef, List.append_assoc]
      rfl
    · dsimp only
      rw [herr]
    · dsimp only
      rw [hcomp, List.append_nil]
  · rcases hrs : runSteps eff c st1 with ⟨sf, ef, mf⟩ | ⟨sf, ef⟩
    · have hrun : run eff st0 =
          (.error mf,
            evs1 ++ ef ++ [.save { sf with errors := sf.errors ++ [mf] }]) := by
        unfold run; rw [hps]; dsimp only; rw [hrs]
      rw [hrun] at h ⊢
      dsimp only at h
      injection h with h1
      subst h1
      obtain ⟨herr1, t1, hcomp1⟩ := runParseSolve_ok hps
      obtain ⟨⟨evs₀, cEv, hef, hcall⟩, herr2, t2, hcomp2⟩ := runSteps_error hrs
      refine ⟨evs1 ++ evs₀, cEv, { sf with errors := sf.errors ++ [mf] },
        ?_, hcall, ?_, ⟨t1 ++ t2, ?_⟩⟩
      · rw [hef]
        simp only [List.append_assoc]
        rfl
      · dsimp only
        rw [herr2, herr1]
      · dsimp only
        rw [hcomp2, hcomp1, List.append_assoc]
    · have hrun : run eff st0 = (.ok sf, evs1 ++ ef ++ [.save sf]) := by
        unfold run; rw [hps]; dsimp only; rw [hrs]
      rw [hrun] at h
      dsimp only at h
      exact Except.noConfusion h

/-- Witness for `run_failure_records_error`: a fresh run whose build step
raises. -/
theorem run_failure_records_error_witness :
    ∃ evs₀ cEv sE,
      (run effFailBuild (freshState "i" "o" "d")).2 =
          evs₀ ++ [cEv, .save sE] ∧
        cEv.isCall = true ∧
        sE.errors = (freshState "i" "o" "d").errors ++ ["boom"] ∧
        ∃ t, sE.completed_steps =
          (freshState "i" "o" "d").completed_steps ++ t :=
  run_failure_records_error effFailBuild (freshState "i" "o" "d") "boom" rfl

theorem FS.read_write_self (fs : FS) (p : String) (bs : List Nat) :
    FS.read (fs.write p bs) p = some bs := by
  simp [FS.write, FS.read]

theorem FS.read_write_ne (fs : FS) {p q : String} (bs : List Nat)
    (h : p ≠ q) : FS.read (fs.write p bs) q = FS.read fs q := by
  simp [FS.write, FS.read, h]

theorem self_ne_append_orig (rel : String) : rel ++ ".orig" ≠ rel := by
  intro h
  have hl := congrArg String.length h
  rw [String.length_append] at hl
  have h5 : (".orig" : String).length = 5 := rfl
  omega

theorem countCRLF_cons_ten (xs : List Nat) :
    countCRLF (10 :: xs) = countCRLF xs := by
  cases xs with
  | nil => rfl
  | cons b rest => simp [countCRLF]

theorem countCRLF_cons_of_ne {a : Nat} (xs : List Nat) (ha : a ≠ 13) :
    countCRLF (a :: xs) = countCRLF xs := by
  cases xs with
  | nil => rfl
  | cons b rest => simp [countCRLF, ha]

theorem countCRLF_cons13 {ys : List Nat} (hy : ys.head? ≠ some 10) :
    countCRLF (13 :: ys) = countCRLF ys := by
  cases ys with
  | nil => rfl
  | cons y t =>
    have hyy : y ≠ 10 := by simpa using hy
    simp [countCRLF, hyy]

theorem replaceCRLF_head_ten {xs : List Nat} (h1 : xs.head? ≠ some 10)
    (h2 : ∀ t, xs ≠ 13 :: 10 :: t) : (replaceCRLF xs).head? ≠ some 10 := by
  match xs with
  | [] => simp [replaceCRLF]
  | [a] => simpa [replaceCRLF] using h1
  | a :: b :: rest =>
    have hab : ¬(a = 13 ∧ b = 10) := by
      rintro ⟨rfl, rfl⟩
      exact h2 rest rfl
    simp only [replaceCRLF, if_neg hab]
    simpa using h1

theorem noCRCRLF_tail {x : Nat} {xs : List Nat}
    (h : noCRCRLF (x :: xs) = true) : noCRCRLF xs = true := by
  match xs with
  | [] => rfl
  | [a] => rfl
  | b :: c :: t =>
    simp only [noCRCRLF, Bool.and_eq_true] at h
    exact h.2

theorem countCRLF_replaceCRLF :
    ∀ bs : List Nat, noCRCRLF bs = true → countCRLF (replaceCRLF bs) = 0
  | [], _ => rfl
  | [_], _ => rfl
  | a :: b :: rest, h => by
    by_cases hab : a = 13 ∧ b = 10
    · obtain ⟨rfl, rfl⟩ := hab
      rw [show replaceCRLF (13 :: 10 :: rest) = 10 :: replaceCRLF rest from by
        simp [replaceCRLF]]
      rw [countCRLF_cons_ten]
      exact countCRLF_replaceCRLF rest (noCRCRLF_tail (noCRCRLF_tail h))
    · rw [show replaceCRLF (a :: b :: rest) = a :: replaceCRLF (b :: rest)
        from by simp [replaceCRLF, hab]]
      by_cases ha : a = 13
      · subst ha
        have hb : b ≠ 10 := fun hbv => hab ⟨rfl, hbv⟩
        have hh2 : ∀ t, (b :: rest) ≠ 13 :: 10 :: t := by
          intro t ht
          injection ht with hb1 hrest
          subst hb1
          subst hrest
          simp [noCRCRLF] at h
        have hh1 : (b :: rest).head? ≠ some 10 := by simpa using hb
        rw [countCRLF_cons13 (replaceCRLF_head_ten hh1 hh2)]
        exact countCRLF_replaceCRLF (b :: rest) (noCRCRLF_tail h)
      · rw [countCRLF_cons_of_ne _ ha]
        exact countCRLF_replaceCRLF (b :: rest) (noCRCRLF_tail h)

theorem fix_encoding_noop {env : RepairEnv} {fs : FS} {rel : String}
    {raw : List Nat} (hex : FS.read fs rel = some raw)
    (hdet : ∀ n, env.detect raw = some n →
      n.toLower = "utf-8" ∨ n.toLower = "ascii") :
    fix_encoding env fs rel = (fs, none) := by
  unfold fix_encoding
  rw [hex]
  simp only [Option.getD_some]
  rcases hd : env.detect raw with _ | n
  · rfl
  · dsimp only
    rw [if_pos (hdet n hd)]

theorem repair_after_enc {env : RepairEnv} {fs fs1 : FS} {rel : String}
    {ts : List DataTransformation} {raw : List Nat}
    {orec : Option DataTransformation}
    (hfix : fix_encoding env fs rel = (fs1, orec))
    (hex : FS.read fs rel = some raw) :
    repair env fs rel ts =
      ((fix_line_endings fs1 rel).1,
        (ts ++ orec.toList) ++ (fix_line_endings fs1 rel).2.toList) := by
  unfold repair
  rw [hex]
  dsimp only
  rw [hfix]

/-- C4 counterexample: the three-byte file `CR CR LF` contains exactly one
CRLF occurrence and no encoding issue, yet after `repair` the file is
`CR LF` — one CRLF occurrence remains (Python `bytes.replace` scans left to
right, and the replacement re-creates a CRLF after the stray CR).  The
audit record still shows `records_affected = 1`. -/
theorem repair_crlf_remainder :
    countCRLF [13, 13, 10] = 1 ∧
    FS.read
        (repair envDetectNone [("d.csv", [13, 13, 10])] "d.csv" []).1 "d.csv"
      = some [13, 10] ∧
    countCRLF [13, 10] = 1 ∧
    (repair envDetectNone [("d.csv", [13, 13, 10])] "d.csv" []).2 =
      [lineEndingsRecord "d.csv" 1] := by
  decide

/-- C4 (amended): for an existing file with `k` CRLF occurrences and no
encoding issue, when `k = 0` repair changes nothing and records nothing;
when `k > 0` the file is rewritten with every CRLF replaced left-to-right by
LF and exactly one line-endings record with `records_affected = k` is
appended, and — provided no CR immediately precedes a CRLF in the original
bytes — zero CRLF occurrences remain. -/
theorem repair_line_endings_count {env : RepairEnv} {fs : FS} {rel : String}
    (ts : List DataTransformation) {raw : List Nat}
    (hex : FS.read fs rel = some raw)
    (hdet : ∀ n, env.detect raw = some n →
      n.toLower = "utf-8" ∨ n.toLower = "ascii") :
    (countCRLF raw = 0 → repair env fs rel ts = (fs, ts)) ∧
    (0 < countCRLF raw →
      FS.read (repair env fs rel ts).1 rel = some (replaceCRLF raw) ∧
      (repair env fs rel ts).2 =
        ts ++ [lineEndingsRecord rel (countCRLF raw)] ∧
      (noCRCRLF raw = true → countCRLF (replaceCRLF raw) = 0)) := by
  have hrep := @repair_after_enc env fs fs rel ts raw none
    (fix_encoding_noop hex hdet) hex
  constructor
  · intro h0
    rw [hrep]
    unfold fix_line_endings
    rw [hex]
    simp only [Option.getD_some]
    try dsimp only
    rw [if_pos h0]
    simp
  · intro hpos
    have hne : ¬(countCRLF raw = 0) := by omega
    rw [hrep]
    unfold fix_line_endings
    rw [hex]
    simp only [Option.getD_some]
    try dsimp only
    rw [if_neg hne]
    refine ⟨FS.read_write_self _ _ _, by simp, fun hno =>
      countCRLF_replaceCRLF raw hno⟩

/-- Witness for `repair_line_endings_count`: a one-line CRLF file with no
detected encoding. -/
theorem repair_line_endings_count_witness :
    (countCRLF [13, 10, 65] = 0 →
      repair envDetectNone [("d.csv", [13, 10, 65])] "d.csv" [] =
        ([("d.csv", [13, 10, 65])], [])) ∧
    (0 < countCRLF [13, 10, 65] →
      FS.read
          (repair envDetectNone [("d.csv", [13, 10, 65])] "d.csv" []).1 "d.csv"
        = some (replaceCRLF [13, 10, 65]) ∧
      (repair envDetectNone [("d.csv", [13, 10, 65])] "d.csv" []).2 =
        [] ++ [lineEndingsRecord "d.csv" (countCRLF [13, 10, 65])] ∧
      (noCRCRLF [13, 10, 65] = true →
        countCRLF (replaceCRLF [13, 10, 65]) = 0)) :=
  repair_line_endings_count [] rfl (fun _ h => Option.noConfusion h)

/-- C5: for an existing file whose lower-cased detected encoding is neither
`utf-8` nor `ascii`, the encoding fix first writes a byte-for-byte `.orig`
backup, then overwrites the file with the decoded text re-encoded as UTF-8,
and `repair` appends exactly one encoding record (whose `backup_path` is the
package-relative `.orig` path, recorded inside `encodingRecord`), the backup
surviving the subsequent line-ending fix; when the detected encoding is
`utf-8` or `ascii` the encoding fix leaves the file system untouched and no
encoding record is ever appended. -/
theorem repair_encoding_convert {env : RepairEnv} {fs : FS} {rel : String}
    (ts : List DataTransformation) {raw : List Nat} {encName : String}
    (hex : FS.read fs rel = some raw)
    (hdet : env.detect raw = some encName) :
    (encName.toLower ≠ "utf-8" → encName.toLower ≠ "ascii" →
      fix_encoding env fs rel =
        ((fs.write (rel ++ ".orig") raw).write rel
            (env.utf8 (env.decode encName.toLower raw)),
          some (encodingRecord env rel raw encName.toLower)) ∧
      FS.read (repair env fs rel ts).1 (rel ++ ".orig") = some raw ∧
      ((repair env fs rel ts).2.drop ts.length).filter
          (fun t => decide (t.issue = DataQualityIssue.encoding)) =
        [encodingRecord env rel raw encName.toLower]) ∧
    ((encName.toLower = "utf-8" ∨ encName.toLower = "ascii") →
      fix_encoding env fs rel = (fs, none) ∧
      ∀ t ∈ (repair env fs rel ts).2.drop ts.length,
        t.issue ≠ DataQualityIssue.encoding) := by
  constructor
  · intro h1 h2
    have hcond : ¬(encName.toLower = "utf-8" ∨ encName.toLower = "ascii") := by
      rintro (hc | hc)
      · exact h1 hc
      · exact h2 hc
    have hfe : fix_encoding env fs rel =
        ((fs.write (rel ++ ".orig") raw).write rel
            (env.utf8 (env.decode encName.toLower raw)),
          some (encodingRecord env rel raw encName.toLower)) := by
      unfold fix_encoding
      rw [hex]
      simp only [Option.getD_some]
      rw [hdet]
      dsimp only
      rw [if_neg hcond]
    refine ⟨hfe, ?_, ?_⟩
    · rw [repair_after_enc hfe hex]
      dsimp only
      unfold fix_line_endings
      rw [FS.read_write_self]
      simp only [Option.getD_some]
      try dsimp only
      by_cases hk :
          countCRLF (env.utf8 (env.decode encName.toLower raw)) = 0
      · rw [if_pos hk]
        try dsimp only
        rw [FS.read_write_ne _ _ (Ne.symm (self_ne_append_orig rel)),
          FS.read_write_self]
      · rw [if_neg hk]
        try dsimp only
        rw [FS.read_write_ne _ _ (Ne.symm (self_ne_append_orig rel)),
          FS.read_write_ne _ _ (Ne.symm (self_ne_append_orig rel)),
          FS.read_write_self]
    · rw [repair_after_enc hfe hex]
      dsimp only
      unfold fix_line_endings
      rw [FS.read_write_self]
      simp only [Option.getD_some]
      try dsimp only
      by_cases hk :
          countCRLF (env.utf8 (env.decode encName.toLower raw)) = 0
      · rw [if_pos hk]
        simp [List.drop_left, encodingRecord, List.filter]
      · rw [if_neg hk]
        try dsimp only
        simp [List.append_assoc, List.drop_left, encodingRecord,
          lineEndingsRecord, List.filter]
  · intro hor
    have hfe0 : fix_encoding env fs rel = (fs, none) := by
      unfold fix_encoding
      rw [hex]
      simp only [Option.getD_some]
      rw [hdet]
      dsimp only
      rw [if_pos hor]
    refine ⟨hfe0, ?_⟩
    rw [repair_after_enc hfe0 hex]
    dsimp only
    unfold fix_line_endings
    rw [hex]
    simp only [Option.getD_some]
    try dsimp only
    by_cases hk : countCRLF raw = 0
    · rw [if_pos hk]
      simp
    · rw [if_neg hk]
      try dsimp only
      intro t ht
      simp only [List.append_nil, Option.toList, List.drop_left,
        List.nil_append] at ht
      simp [List.drop_left] at ht
      subst ht
      simp [lineEndingsRecord]

/-- Witness for `repair_encoding_convert`: a one-byte CP1252 file. -/
theorem repair_encoding_convert_witness :
    (("CP1252".toLower ≠ "utf-8") → ("CP1252".toLower ≠ "ascii") →
      fix_encoding envCp1252 [("f.csv", [200])] "f.csv" =
        ((FS.write [("f.csv", [200])] ("f.csv" ++ ".orig") [200]).write "f.csv"
            (envCp1252.utf8 (envCp1252.decode "CP1252".toLower [200])),
          some (encodingRecord envCp1252 "f.csv" [200] "CP1252".toLower)) ∧
      FS.read (repair envCp1252 [("f.csv", [200])] "f.csv" []).1
          ("f.csv" ++ ".orig") = some [200] ∧
      ((repair envCp1252 [("f.csv", [200])] "f.csv" []).2.drop
            ([] : List DataTransformation).length).filter
          (fun t => decide (t.issue = DataQualityIssue.encoding)) =
        [encodingRecord envCp1252 "f.csv" [200] "CP1252".toLower]) ∧
    (("CP1252".toLower = "utf-8" ∨ "CP1252".toLower = "ascii") →
      fix_encoding envCp1252 [("f.csv", [200])] "f.csv" =
        ([("f.csv", [200])], none) ∧
      ∀ t ∈ (repair envCp1252 [("f.csv", [200])] "f.csv" []).2.drop
          ([] : List DataTransformation).length,
        t.issue ≠ DataQualityIssue.encoding) :=
  repair_encoding_convert [] rfl rfl

theorem voteLoop_nulls (I F : String → Bool) (cells : List String) :
    ∀ (n : Nat) (bi bf : Bool),
      (voteLoop I F cells n bi bf).1 = n + countNulls cells := by
  induction cells with
  | nil => intro n bi bf; simp [voteLoop, countNulls]
  | cons v rest ih =>
    intro n bi bf
    by_cases hv : pyStrip v = ""
    · simp only [voteLoop, if_pos hv]
      rw [ih]
      simp [countNulls, List.filter_cons, hv]
      omega
    · simp only [voteLoop, if_neg hv]
      rw [ih]
      simp [countNulls, List.filter_cons, hv]

theorem voteLoop_int (I F : String → Bool) (cells : List String) :
    ∀ (n : Nat) (bi bf : Bool),
      (voteLoop I F cells n bi bf).2.1 = (bi && (nonNullCells cells).all I) := by
  induction cells with
  | nil => intro n bi bf; simp [voteLoop, nonNullCells]
  | cons v rest ih =>
    intro n bi bf
    by_cases hv : pyStrip v = ""
    · simp only [voteLoop, if_pos hv]
      rw [ih]
      simp [nonNullCells, List.filter_cons, hv]
    · simp only [voteLoop, if_neg hv]
      rw [ih]
      simp [nonNullCells, List.filter_cons, hv, Bool.and_assoc]

theorem voteLoop_float_false (I F : String → Bool) (cells : List String) :
    ∀ (n : Nat) (bf : Bool),
      (voteLoop I F cells n false bf).2.2 =
        (bf && (nonNullCells cells).all F) := by
  induction cells with
  | nil => intro n bf; simp [voteLoop, nonNullCells]
  | cons v rest ih =>
    intro n bf
    by_cases hv : pyStrip v = ""
    · simp only [voteLoop, if_pos hv]
      rw [ih]
      simp [nonNullCells, List.filter_cons, hv]
    · simp only [voteLoop, if_neg hv, Bool.false_and]
      rw [ih]
      simp only [nonNullCells, List.filter_cons, hv]
      cases bf <;> simp [Bool.and_assoc]

theorem voteLoop_float (I F : String → Bool)
    (hIF : ∀ s, I s = true → F s = true) (cells : List String) :
    ∀ (n : Nat) (bf : Bool),
      (voteLoop I F cells n true bf).2.2 =
        (bf && (nonNullCells cells).all F) := by
  induction cells with
  | nil => intro n bf; simp [voteLoop, nonNullCells]
  | cons v rest ih =>
    intro n bf
    by_cases hv : pyStrip v = ""
    · simp only [voteLoop, if_pos hv]
      rw [ih]
      simp [nonNullCells, List.filter_cons, hv]
    · simp only [voteLoop, if_neg hv]
      by_cases hi : I v = true
      · simp only [hi, Bool.true_and, Bool.and_true]
        rw [ih]
        simp [nonNullCells, List.filter_cons, hv, hIF v hi]
      · have hi' : I v = false := by
          cases hIv : I v
          · rfl
          · exact absurd hIv hi
        simp only [hi', Bool.true_and, Bool.and_false, Bool.not_false,
          Bool.and_true]
        rw [voteLoop_float_false]
        simp only [nonNullCells, List.filter_cons, hv]
        cases bf <;> simp [Bool.and_assoc]

theorem countNulls_add (cells : List String) :
    countNulls cells + (nonNullCells cells).length = cells.length := by
  induction cells with
  | nil => rfl
  | cons v rest ih =>
    by_cases hv : pyStrip v = ""
    · have h1 : countNulls (v :: rest) = countNulls rest + 1 := by
        simp [countNulls, List.filter_cons, hv]
      have h2 : nonNullCells (v :: rest) = nonNullCells rest := by
        simp [nonNullCells, List.filter_cons, hv]
      rw [h1, h2, List.length_cons]
      omega
    · have h1 : countNulls (v :: rest) = countNulls rest := by
        simp [countNulls, List.filter_cons, hv]
      have h2 : (nonNullCells (v :: rest)).length =
          (nonNullCells rest).length + 1 := by
        simp [nonNullCells, List.filter_cons, hv]
      rw [h1, h2, List.length_cons]
      omega

theorem dtype_if_eq_specDtype (I F : String → Bool) (cells : List String) :
    (if (nonNullCells cells).all I = true ∧ countNulls cells < cells.length
      then "int64"
      else if (nonNullCells cells).all F = true ∧
          countNulls cells < cells.length
      then "float64" else "object") = specDtype I F cells := by
  have hadd := countNulls_add cells
  unfold specDtype
  by_cases hnn : nonNullCells cells = []
  · have hall : countNulls cells = cells.length := by
      rw [hnn] at hadd
      simpa using hadd
    simp [hnn, hall]
  · have hlen : 0 < (nonNullCells cells).length := List.length_pos.mpr hnn
    have hlt : countNulls cells < cells.length := by omega
    simp [hnn, hlt]

theorem inferColumn_eq (I F : String → Bool)
    (hIF : ∀ s, I s = true → F s = true)
    (data_rows : List (List String)) (i : Nat) (col : String) :
    inferColumn I F data_rows data_rows.length i col =
      ((col, specDtype I F (cellsOfColumn data_rows i)),
        if 0 < countNulls (cellsOfColumn data_rows i) then
          some (col, countNulls (cellsOfColumn data_rows i))
        else none) := by
  unfold inferColumn
  have hc : data_rows.map (fun r => r.getD i "") = cellsOfColumn data_rows i :=
    rfl
  rw [hc]
  dsimp only
  rw [voteLoop_nulls, voteLoop_int, voteLoop_float I F hIF]
  have hlen : data_rows.length = (cellsOfColumn data_rows i).length := by
    simp [cellsOfColumn]
  rw [hlen]
  simp only [Nat.zero_add, Bool.true_and]
  rw [dtype_if_eq_specDtype]

/-- C6 counterexample: a CSV with header `a` and one all-null data row.
Every non-empty cell of the column parses as an integer vacuously, so the
claim as stated demands dtype `int64`, but the code types an all-null column
as `object` (the `nulls < row_count` guard, inventory.py line 118). -/
theorem csv_all_null_column_object :
    extract_csv_schema pyIntStr pyFloatStr [["a"], [""]] =
      some ⟨["a"], [("a", "object")], 1, [("a", 1)]⟩ ∧
    nonNullCells (cellsOfColumn [[""]] 0) = [] ∧
    extract_csv_schema pyIntStr pyFloatStr [["a"], [""]] ≠
      some ⟨["a"], [("a", "int64")], 1, [("a", 1)]⟩ := by
  decide

/-- C6 (amended): on parsed CSV rows (header and data rows), the schema has
`row_count` equal to the number of non-header rows, one dtype entry per
column in order — `int64` when every non-null cell of the column parses as an
integer, else `float64` when every non-null cell parses as a float, else
`object`, except that a column whose cells are all null (empty or
whitespace-only, short rows padded with `""`) is typed `object` — and a
null-count entry exactly for the columns with at least one null cell.
Parametric in the `int()`/`float()` parse predicates, assuming every
int-parseable string is float-parseable, as in Python. -/
theorem extract_csv_schema_spec (I F : String → Bool)
    (hIF : ∀ s, I s = true → F s = true)
    (columns : List String) (data_rows : List (List String)) :
    extract_csv_schema I F (columns :: data_rows) =
      some { columns := columns
             dtypes := columns.enum.map (fun ic =>
               (ic.2, specDtype I F (cellsOfColumn data_rows ic.1)))
             row_count := data_rows.length
             null_counts := columns.enum.filterMap (fun ic =>
               if 0 < countNulls (cellsOfColumn data_rows ic.1) then
                 some (ic.2, countNulls (cellsOfColumn data_rows ic.1))
               else none) } := by
  unfold extract_csv_schema
  dsimp only
  have hres : columns.enum.map (fun ic =>
      inferColumn I F data_rows data_rows.length ic.1 ic.2) =
      columns.enum.map (fun ic =>
        ((ic.2, specDtype I F (cellsOfColumn data_rows ic.1)),
          if 0 < countNulls (cellsOfColumn data_rows ic.1) then
            some (ic.2, countNulls (cellsOfColumn data_rows ic.1))
          else none)) := by
    apply List.map_congr_left
    intro ic _
    exact inferColumn_eq I F hIF data_rows ic.1 ic.2
  rw [hres]
  simp only [List.map_map, List.filterMap_map]
  rfl

/-- Witness for `extract_csv_schema_spec`: an int column, a float column with
a null, and a text column. -/
theorem extract_csv_schema_spec_witness :
    extract_csv_schema pyIntStr pyFloatStr
        [["a", "b", "c"], ["1", "2.5", "x"], ["2", "", "y"]] =
      some { columns := ["a", "b", "c"]
             dtypes := (["a", "b", "c"].enum).map (fun ic =>
               (ic.2, specDtype pyIntStr pyFloatStr
                 (cellsOfColumn [["1", "2.5", "x"], ["2", "", "y"]] ic.1)))
             row_count := 2
             null_counts := (["a", "b", "c"].enum).filterMap (fun ic =>
               if 0 < countNulls
                   (cellsOfColumn [["1", "2.5", "x"], ["2", "", "y"]] ic.1)
               then some (ic.2, countNulls
                 (cellsOfColumn [["1", "2.5", "x"], ["2", "", "y"]] ic.1))
               else none) } :=
  extract_csv_schema_spec pyIntStr pyFloatStr
    (fun s h => by simp [pyFloatStr, h]) ["a", "b", "c"]
    [["1", "2.5", "x"], ["2", "", "y"]]

/-- C10: `NotebookSolver.solve` returns a content with the same number of
cells in the same order and `path`, `metadata`, `instructions` and
`kernel_spec` unchanged; a cell whose status is neither todo_code nor
todo_markdown is returned unchanged, and a todo cell is returned with status
completed, `original_source` its prior source, `source` the solver's answer,
and every other field unchanged. -/
theorem solve_spec (sc sm : NotebookCell → NotebookContent → String)
    (content : NotebookContent) (i : Nat) (cell : NotebookCell)
    (hcell : content.cells[i]? = some cell) :
    (solve sc sm content).path = content.path ∧
    (solve sc sm content).metadata = content.metadata ∧
    (solve sc sm content).instructions = content.instructions ∧
    (solve sc sm content).kernel_spec = content.kernel_spec ∧
    (solve sc sm content).cells.length = content.cells.length ∧
    (cell.status ≠ .todo_code → cell.status ≠ .todo_markdown →
      (solve sc sm content).cells[i]? = some cell) ∧
    (cell.status = .todo_code →
      (solve sc sm content).cells[i]? = some
        { index := cell.index
          cell_type := cell.cell_type
          source := sc cell content
          status := .completed
          original_source := some cell.source
          outputs := cell.outputs }) ∧
    (cell.status = .todo_markdown →
      (solve sc sm content).cells[i]? = some
        { index := cell.index
          cell_type := cell.cell_type
          source := sm cell content
          status := .completed
          original_source := some cell.source
          outputs := cell.outputs }) := by
  refine ⟨rfl, rfl, rfl, rfl, by simp [solve], ?_, ?_, ?_⟩
  · intro h1 h2
    have hsc : solveCell sc sm content cell = cell := by
      unfold solveCell
      cases hs : cell.status
      · rfl
      · exact absurd hs h1
      · exact absurd hs h2
      · rfl
      · rfl
    simp [solve, List.getElem?_map, hcell, hsc]
  · intro hs
    have hsc : solveCell sc sm content cell =
        { index := cell.index
          cell_type := cell.cell_type
          source := sc cell content
          status := .completed
          original_source := some cell.source
          outputs := cell.outputs } := by
      unfold solveCell
      rw [hs]
    simp [solve, List.getElem?_map, hcell, hsc]
  · intro hs
    have hsc : solveCell sc sm content cell =
        { index := cell.index
          cell_type := cell.cell_type
          source := sm cell content
          status := .completed
          original_source := some cell.source
          outputs := cell.outputs } := by
      unfold solveCell
      rw [hs]
    simp [solve, List.getElem?_map, hcell, hsc]

/-- Witness for `solve_spec` at a concrete two-cell notebook and the todo
cell. -/
theorem solve_spec_witness :
    (solve scW smW contentW).path = contentW.path ∧
    (solve scW smW contentW).metadata = contentW.metadata ∧
    (solve scW smW contentW).instructions = contentW.instructions ∧
    (solve scW smW contentW).kernel_spec = contentW.kernel_spec ∧
    (solve scW smW contentW).cells.length = contentW.cells.length ∧
    (cellT.status ≠ .todo_code → cellT.status ≠ .todo_markdown →
      (solve scW smW contentW).cells[1]? = some cellT) ∧
    (cellT.status = .todo_code →
      (solve scW smW contentW).cells[1]? = some
        { index := cellT.index
          cell_type := cellT.cell_type
          source := scW cellT contentW
          status := .completed
          original_source := some cellT.source
          outputs := cellT.outputs }) ∧
    (cellT.status = .todo_markdown →
      (solve scW smW contentW).cells[1]? = some
        { index := cellT.index
          cell_type := cellT.cell_type
          source := smW cellT contentW
          status := .completed
          original_source := some cellT.source
          outputs := cellT.outputs }) :=
  solve_spec scW smW contentW 1 cellT rfl

theorem le_foldl_max : ∀ (l : List Nat) (a : Nat), a ≤ l.foldl max a := by
  intro l
  induction l with
  | nil => intro a; exact Nat.le_refl a
  | cons b t ih =>
    intro a
    exact le_trans (Nat.le_max_left a b) (ih (max a b))

theorem mem_le_foldl_max :
    ∀ (l : List Nat) (a v : Nat), v ∈ l → v ≤ l.foldl max a := by
  intro l
  induction l with
  | nil => intro a v hv; simp at hv
  | cons b t ih =>
    intro a v hv
    rcases List.mem_cons.mp hv with h | h
    · subst h
      exact le_trans (Nat.le_max_right a v) (le_foldl_max t (max a v))
    · exact ih (max a b) v h

theorem foldl_max_mem :
    ∀ (l : List Nat) (a : Nat), l.foldl max a = a ∨ l.foldl max a ∈ l := by
  intro l
  induction l with
  | nil => intro a; exact Or.inl rfl
  | cons b t ih =>
    intro a
    rcases ih (max a b) with h | h
    · rcases max_choice a b with h2 | h2
      · exact Or.inl (by rw [List.foldl_cons, h, h2])
      · refine Or.inr ?_
        rw [List.foldl_cons, h, h2]
        exact List.mem_cons_self b t
    · exact Or.inr (List.mem_cons_of_mem b (by rw [List.foldl_cons]; exact h))

theorem fold_parse_eq (dirs : List String) : ∀ a : Nat,
    dirs.foldl (fun acc d => match parseRunName d with
      | some v => max acc v
      | none => acc) a =
    (dirs.filterMap parseRunName).foldl max a := by
  induction dirs with
  | nil => intro a; rfl
  | cons d t ih =>
    intro a
    rcases hp : parseRunName d with _ | v <;>
      simp only [List.foldl_cons, List.filterMap_cons, hp]
    · exact ih a
    · exact ih (max a v)

/-- C9: the auto-generated run name is `run-` followed by the successor of
the maximum three-digit suffix among the subdirectory names matching
`run-NNN`, zero-padded to (at least) three digits; non-matching names are
ignored by `parseRunName`; with no matching subdirectory the result is
`run-001`. -/
theorem next_run_name_spec (dirs : List String) :
    next_run_name dirs =
      "run-" ++ pad3 ((dirs.filterMap parseRunName).foldl max 0 + 1) ∧
    (∀ v ∈ dirs.filterMap parseRunName,
      v ≤ (dirs.filterMap parseRunName).foldl max 0) ∧
    ((dirs.filterMap parseRunName).foldl max 0 = 0 ∨
      (dirs.filterMap parseRunName).foldl max 0 ∈
        dirs.filterMap parseRunName) ∧
    (dirs.filterMap parseRunName = [] → next_run_name dirs = "run-001") := by
  refine ⟨?_, fun v hv => mem_le_foldl_max _ 0 v hv, foldl_max_mem _ 0, ?_⟩
  · unfold next_run_name
    rw [fold_parse_eq dirs 0]
  · intro hnil
    unfold next_run_name
    rw [fold_parse_eq dirs 0, hnil]
    decide

/-- Witness for `next_run_name_spec` at the spec's own example:
`run-001` and `run-003` present, `custom-run` ignored. -/
theorem next_run_name_spec_witness :
    next_run_name ["run-001", "run-003", "custom-run"] =
      "run-" ++ pad3 ((["run-001", "run-003", "custom-run"].filterMap
        parseRunName).foldl max 0 + 1) ∧
    (∀ v ∈ ["run-001", "run-003", "custom-run"].filterMap parseRunName,
      v ≤ (["run-001", "run-003", "custom-run"].filterMap
        parseRunName).foldl max 0) ∧
    ((["run-001", "run-003", "custom-run"].filterMap
        parseRunName).foldl max 0 = 0 ∨
      (["run-001", "run-003", "custom-run"].filterMap
        parseRunName).foldl max 0 ∈
        ["run-001", "run-003", "custom-run"].filterMap parseRunName) ∧
    (["run-001", "run-003", "custom-run"].filterMap parseRunName = [] →
      next_run_name ["run-001", "run-003", "custom-run"] = "run-001") :=
  next_run_name_spec ["run-001", "run-003", "custom-run"]

theorem detect_index_ge (search : String → List Char → Bool)
    (varName : String → List Char → Option String) (patterns : List String) :
    ∀ (cells : List NbCell) (n : Nat) (m : TodoMarker),
      m ∈ (cells.enumFrom n).filterMap (markerFor search varName patterns) →
      n ≤ m.cell_index := by
  intro cells
  induction cells with
  | nil => intro n m hm; simp [List.enumFrom] at hm
  | cons c cs ih =>
    intro n m hm
    simp only [List.enumFrom, List.filterMap_cons] at hm
    rcases hmf : markerFor search varName patterns (n, c) with _ | mk <;>
      rw [hmf] at hm
    · exact Nat.le_of_succ_le (ih (n + 1) m hm)
    · rcases List.mem_cons.mp hm with h | h
      · subst h
        unfold markerFor at hmf
        rcases hf : patterns.find? (fun p => search p (n, c).2.source)
          with _ | p <;> rw [hf] at hmf
        · exact absurd hmf (by simp)
        · injection hmf with h'
          rw [← h']
      · exact Nat.le_of_succ_le (ih (n + 1) m h)

theorem detect_markers_aux (search : String → List Char → Bool)
    (varName : String → List Char → Option String) (patterns : List String) :
    ∀ (cells : List NbCell) (n i : Nat) (cell : NbCell),
      cells[i]? = some cell →
      ((cells.enumFrom n).filterMap
          (markerFor search varName patterns)).filter
          (fun m => decide (m.cell_index = n + i)) =
        (match patterns.find? (fun p => search p cell.source) with
         | some p => [⟨n + i,
             (if cell.cell_type = "code" then .code else .markdown), p,
             varName p cell.source, cell.source.take 200⟩]
         | none => []) := by
  intro cells
  induction cells with
  | nil => intro n i cell h; simp at h
  | cons c cs ih =>
    intro n i cell h
    cases i with
    | zero =>
      have hc : c = cell := by simpa using h
      subst hc
      simp only [Nat.add_zero]
      simp only [List.enumFrom, List.filterMap_cons]
      have hrest : ((cs.enumFrom (n + 1)).filterMap
          (markerFor search varName patterns)).filter
          (fun m => decide (m.cell_index = n)) = [] := by
        rw [List.filter_eq_nil_iff]
        intro m hm
        have := detect_index_ge search varName patterns cs (n + 1) m hm
        simp
        omega
      rcases hmf : markerFor search varName patterns (n, c) with _ | mk
      · unfold markerFor at hmf
        rcases hf : patterns.find? (fun p => search p (n, c).2.source)
          with _ | p <;> rw [hf] at hmf
        · exact hrest
        · exact absurd hmf (by simp)
      · unfold markerFor at hmf
        rcases hf : patterns.find? (fun p => search p (n, c).2.source)
          with _ | p <;> rw [hf] at hmf
        · exact absurd hmf (by simp)
        · injection hmf with h'
          dsimp only
          simp only [List.filter_cons]
          rw [if_pos (by rw [← h']; simp), hrest, ← h']
    | succ j =>
      have h' : cs[j]? = some cell := by simpa using h
      simp only [List.enumFrom, List.filterMap_cons]
      have hrec := ih (n + 1) j cell h'
      rw [show n + (j + 1) = (n + 1) + j from by omega]
      rcases hmf : markerFor search varName patterns (n, c) with _ | mk
      · exact hrec
      · have hidx : mk.cell_index = n := by
          unfold markerFor at hmf
          rcases hf : patterns.find? (fun p => search p (n, c).2.source)
            with _ | p <;> rw [hf] at hmf
          · exact absurd hmf (by simp)
          · injection hmf with h''
            rw [← h'']
        simp only [List.filter_cons]
        rw [if_neg (by simp [hidx]; omega), hrec]

theorem detect_context_le (search : String → List Char → Bool)
    (varName : String → List Char → Option String)
    (patterns : List String) (cells : List NbCell) :
    ∀ m ∈ detect_markers search varName patterns cells,
      m.context.length ≤ 200 := by
  intro m hm
  unfold detect_markers at hm
  rw [List.mem_filterMap] at hm
  obtain ⟨ic, -, hf⟩ := hm
  unfold markerFor at hf
  rcases hfind : patterns.find? (fun p => search p ic.2.source) with _ | p <;>
    rw [hfind] at hf
  · exact absurd hf (by simp)
  · injection hf with h'
    subst h'
    simp only [List.length_take]
    exact Nat.min_le_left 200 _

/-- C7: against the fixed ordered pattern list, a cell yields at most one
TodoMarker; the markers attributed to cell `i` are exactly the singleton for
the first pattern (in list order) matching that cell's source when one
matches, and empty otherwise; every recorded marker's context is the cell
source truncated to at most 200 characters. -/
theorem detect_markers_spec (search : String → List Char → Bool)
    (varName : String → List Char → Option String)
    (cells : List NbCell) (i : Nat) (cell : NbCell)
    (hcell : cells[i]? = some cell) :
    ((detect_markers search varName DEFAULT_TODO_PATTERNS cells).filter
        (fun m => decide (m.cell_index = i))).length ≤ 1 ∧
    ((detect_markers search varName DEFAULT_TODO_PATTERNS cells).filter
        (fun m => decide (m.cell_index = i))) =
      (match DEFAULT_TODO_PATTERNS.find? (fun p => search p cell.source) with
       | some p => [⟨i, (if cell.cell_type = "code" then CellType.code
           else CellType.markdown), p, varName p cell.source,
           cell.source.take 200⟩]
       | none => []) ∧
    (∀ m ∈ detect_markers search varName DEFAULT_TODO_PATTERNS cells,
      m.context.length ≤ 200) := by
  have hmain := detect_markers_aux search varName DEFAULT_TODO_PATTERNS
    cells 0 i cell hcell
  simp only [Nat.zero_add] at hmain
  have henum : detect_markers search varName DEFAULT_TODO_PATTERNS cells =
      (cells.enumFrom 0).filterMap
        (markerFor search varName DEFAULT_TODO_PATTERNS) := rfl
  refine ⟨?_, ?_, detect_context_le search varName DEFAULT_TODO_PATTERNS cells⟩
  · rw [henum, hmain]
    rcases DEFAULT_TODO_PATTERNS.find? (fun p => search p cell.source)
      with _ | p <;> simp
  · rw [henum, hmain]

/-- Witness for `detect_markers_spec`: two code cells, the second matching
the raise-NotImplementedError pattern. -/
theorem detect_markers_spec_witness :
    ((detect_markers searchW varNameW DEFAULT_TODO_PATTERNS nbCellsW).filter
        (fun m => decide (m.cell_index = 1))).length ≤ 1 ∧
    ((detect_markers searchW varNameW DEFAULT_TODO_PATTERNS nbCellsW).filter
        (fun m => decide (m.cell_index = 1))) =
      (match DEFAULT_TODO_PATTERNS.find?
          (fun p => searchW p ("raise NotImplementedError".data)) with
       | some p => [⟨1,
           (if ("code" : String) = "code" then CellType.code
            else CellType.markdown), p,
           varNameW p ("raise NotImplementedError".data),
           ("raise NotImplementedError".data).take 200⟩]
       | none => []) ∧
    (∀ m ∈ detect_markers searchW varNameW DEFAULT_TODO_PATTERNS nbCellsW,
      m.context.length ≤ 200) :=
  detect_markers_spec searchW varNameW nbCellsW 1
    ⟨"code", "raise NotImplementedError".data⟩ rfl

/-- C8 counterexample: a layout whose `ingested/manifest.json` exists but
whose project root holds a loose file while `input/` is already populated.
`_archive_originals` runs before the manifest check, so the un-forced call
raises the conflict error instead of returning the loaded manifest. -/
theorem ingest_project_conflict_cex :
    ((⟨["loose.txt"], ["old.csv"], some "m0", []⟩ :
        ProjFS String)).ingestedManifest = some "m0" ∧
    ingest_project (fun _ => ("fresh", [])) false
        (⟨["loose.txt"], ["old.csv"], some "m0", []⟩ : ProjFS String) =
      .error .fileExists :=
  ⟨rfl, rfl⟩

/-- C8 (amended): when `ingested/manifest.json` exists, an un-forced
`ingest_project` returns the manifest loaded from that file and re-runs no
ingestion phase — provided the project root does not hold loose files while
`input/` is already populated (that combination raises the conflict error
before the manifest check); when forcing, the previous ingested output is
discarded first and ingestion re-runs from `input/` (which includes any
just-moved loose files). -/
theorem ingest_project_spec {M : Type} (ingestFn : List String → M × List String)
    (fs : ProjFS M) (m : M) (hm : fs.ingestedManifest = some m) :
    ((fs.loose = [] ∨ fs.input = []) →
      ingest_project ingestFn false fs = .ok (m, archivedFS fs, false)) ∧
    (ingest_project ingestFn true fs =
      .ok ((ingestFn (archivedFS fs).input).1,
        { archivedFS fs with
          ingestedManifest := some (ingestFn (archivedFS fs).input).1
          ingestedOther := (ingestFn (archivedFS fs).input).2 }, true)) := by
  constructor
  · intro hnc
    by_cases hl : fs.loose = []
    · unfold ingest_project archive_originals archivedFS
      rw [if_pos hl, if_pos hl]
      dsimp only
      rw [hm]
    · have hi : fs.input = [] := by
        rcases hnc with h | h
        · exact absurd h hl
        · exact h
      unfold ingest_project archive_originals archivedFS
      rw [if_neg hl, if_neg hl,
        if_neg (by rintro ⟨h1, -⟩; exact h1 hi)]
      dsimp only
      rw [hm]
  · by_cases hl : fs.loose = []
    · unfold ingest_project archive_originals archivedFS
      rw [if_pos hl, if_pos hl]
      dsimp only
      rw [hm]
      simp
    · unfold ingest_project archive_originals archivedFS
      rw [if_neg hl, if_neg hl, if_neg (by rintro ⟨-, h2⟩; cases h2)]
      dsimp only
      rw [hm]
      simp

/-- Witness for `ingest_project_spec`: a layout with an existing manifest, a
populated `input/`, no loose files and stale ingested output. -/
theorem ingest_project_spec_witness :
    (((⟨[], ["nb.ipynb"], some "m0", ["junk"]⟩ : ProjFS String).loose = [] ∨
        (⟨[], ["nb.ipynb"], some "m0", ["junk"]⟩ : ProjFS String).input = []) →
      ingest_project (fun _ => ("fresh", ["out.ipynb"])) false
          (⟨[], ["nb.ipynb"], some "m0", ["junk"]⟩ : ProjFS String) =
        .ok ("m0",
          archivedFS (⟨[], ["nb.ipynb"], some "m0", ["junk"]⟩ : ProjFS String),
          false)) ∧
    (ingest_project (fun _ => ("fresh", ["out.ipynb"])) true
        (⟨[], ["nb.ipynb"], some "m0", ["junk"]⟩ : ProjFS String) =
      .ok (((fun (_ : List String) => (("fresh" : String), ["out.ipynb"]))
          (archivedFS (⟨[], ["nb.ipynb"], some "m0", ["junk"]⟩ :
            ProjFS String)).input).1,
        { archivedFS (⟨[], ["nb.ipynb"], some "m0", ["junk"]⟩ :
            ProjFS String) with
          ingestedManifest := some (((fun (_ : List String) =>
            (("fresh" : String), ["out.ipynb"]))
            (archivedFS (⟨[], ["nb.ipynb"], some "m0", ["junk"]⟩ :
              ProjFS String)).input).1)
          ingestedOther := (((fun (_ : List String) =>
            (("fresh" : String), ["out.ipynb"]))
            (archivedFS (⟨[], ["nb.ipynb"], some "m0", ["junk"]⟩ :
              ProjFS String)).input).2) }, true)) :=
  ingest_project_spec (fun _ => ("fresh", ["out.ipynb"]))
    ⟨[], ["nb.ipynb"], some "m0", ["junk"]⟩ "m0" rfl

end NotebookProc
